import Mathlib

/-!
Verification of the trading-strategy core of the whale-dashboard repository.

The embedded code is the strategy section of `check_env.py`:
  * `obv` (and its duplicate `calculate_obv` in `app.py`): cumulative
    signed volume over a close/volume series;
  * `backtest`: the single-position simulation loop over a dataframe of
    bars with precomputed indicator columns (`Close`, `Low`, `High`,
    `EMA50`, `EMA200`, `RSI`, `OBV`);
  * `performance_report`: aggregation over the closed trade ledger.

Python floats are modelled as exact rationals (`Rat`); the pandas
dataframe rows become a list of `Bar` records carrying exactly the
columns the backtest reads, plus `time` for `row.name` (the timestamp
index).  `backtest` receives the frame after `dropna()`, so the list is
the post-`dropna` frame.  Python `int(x)` (truncation toward zero) is
`pyInt`.
-/

/-- One row of the dataframe as read by `backtest`: the timestamp index
(`row.name`, modelled as an integer) and the columns `Close`, `Low`,
`High`, `EMA50`, `EMA200`, `RSI`, `OBV`. -/
structure Bar where
  time : Int
  Close : Rat
  Low : Rat
  High : Rat
  EMA50 : Rat
  EMA200 : Rat
  RSI : Rat
  OBV : Rat
  deriving DecidableEq, Repr

/-- The exit-reason strings written by `backtest`: `"STOP"`, `"TP"`,
`"TREND_FLIP"`, `"EOD"`.  The spec calls `TP` "TAKE_PROFIT" and `EOD`
"END_OF_DATA". -/
inductive ExitReason where
  | STOP
  | TP
  | TREND_FLIP
  | EOD
  deriving DecidableEq, Repr

/-- A finalized trade record: the dict appended to `trades` with the
exit fields filled in (`EntryTime`, `Side`, `EntryPrice`, `Qty`,
`StopPrice`, `ExitTime`, `ExitPrice`, `P&L` as `PnL`, `ExitReason`). -/
structure Trade where
  EntryTime : Int
  Side : String
  EntryPrice : Rat
  Qty : Int
  StopPrice : Rat
  ExitTime : Int
  ExitPrice : Rat
  PnL : Rat
  Reason : ExitReason
  deriving DecidableEq, Repr

/-- The open position: the loop variables `position` (the quantity),
`entry_price`, `stop_price`, together with the `EntryTime` of the
pending record.  In the source the pending record sits at `trades[-1]`
with its exit fields `None` and is finalized in place on exit; here the
pending data lives in the position and the finalized record is appended
on exit, which yields the identical final trade list. -/
structure OpenPos where
  qty : Int
  entry_price : Rat
  stop_price : Rat
  entry_time : Int
  deriving DecidableEq, Repr

/-- The mutable state of the simulation loop: `cash`, the position
(`none` encodes `position == 0`; `doEntry` only ever opens positions of
positive quantity, matching `position > 0`), the closed trade records,
and a counter of entry events (ghost instrumentation: the source has no
such variable, it only appends to `trades` at entry). -/
structure BTState where
  cash : Rat
  pos : Option OpenPos
  trades : List Trade
  entries : Nat
  deriving DecidableEq, Repr

/-- Minimum of a list of rationals; `pandas` `.min()` of a nonempty
series (the empty case never arises in `backtest`). -/
def listMin : List Rat → Rat
  | [] => 0
  | [x] => x
  | x :: y :: rest => min x (listMin (y :: rest))

/-- The stop basis: the minimum of the `Low` column over the slice
`iloc[max(0, i-10):i]`.  In `Nat`, `max 0 (i-10)` is `i - 10` and the
slice has length `i - (i - 10)`. -/
def recentLow (df : List Bar) (i : Nat) : Rat :=
  listMin (((df.drop (i - 10)).take (i - (i - 10))).map Bar.Low)

/-- Python `int(x)`: truncation toward zero. -/
def pyInt (x : Rat) : Int := if 0 ≤ x then ⌊x⌋ else ⌈x⌉

/-- The entry conditions at a bar: `trend_up and rsi_ok and obv_up`. -/
def entrySignal (row prev : Bar) : Prop :=
  row.EMA50 > row.EMA200 ∧ (40 ≤ row.RSI ∧ row.RSI ≤ 55) ∧ row.OBV > prev.OBV

instance (row prev : Bar) : Decidable (entrySignal row prev) := by
  unfold entrySignal; infer_instance

/-- Stop rule: `stop = recent_low if recent_low < price else price * 0.99`. -/
def entryStop (df : List Bar) (i : Nat) (row : Bar) : Rat :=
  if recentLow df i < row.Close then recentLow df i else row.Close * (99 / 100)

/-- Quantity rule: `qty = int(risk_amount / risk_per_share)` with
`risk_amount = cash * risk_per_trade` and
`risk_per_share = price - stop`. -/
def entryQty (df : List Bar) (i : Nat) (row : Bar) (risk_per_trade cash : Rat) : Int :=
  pyInt (cash * risk_per_trade / (row.Close - entryStop df i row))

/-- The entry block of `backtest` (guarded by `position == 0` and the
entry conditions in `barStep`): compute the stop and quantity, and if
`risk_per_share > 0` and `qty > 0` debit the cash and open the
position; otherwise leave the state unchanged. -/
def doEntry (df : List Bar) (i : Nat) (row : Bar) (risk_per_trade : Rat) (s : BTState) : BTState :=
  if 0 < row.Close - entryStop df i row then
    if 0 < entryQty df i row risk_per_trade s.cash then
      { cash := s.cash - (entryQty df i row risk_per_trade s.cash : Rat) * row.Close
        pos := some ⟨entryQty df i row risk_per_trade s.cash, row.Close, entryStop df i row, row.time⟩
        trades := s.trades
        entries := s.entries + 1 }
    else s
  else s

/-- Take-profit level: `tp = entry_price + 2 * risk_per_share` with
`risk_per_share = entry_price - stop_price`. -/
def takeProfit (p : OpenPos) : Rat :=
  p.entry_price + 2 * (p.entry_price - p.stop_price)

/-- The finalized record written for a position exiting at the given
time, price and reason: `P&L = (exit_price - entry_price) * position`. -/
def closeTrade (p : OpenPos) (exit_time : Int) (exit_price : Rat) (reason : ExitReason) : Trade :=
  { EntryTime := p.entry_time
    Side := "LONG"
    EntryPrice := p.entry_price
    Qty := p.qty
    StopPrice := p.stop_price
    ExitTime := exit_time
    ExitPrice := exit_price
    PnL := (exit_price - p.entry_price) * (p.qty : Rat)
    Reason := reason }

/-- The exit block of `backtest`: credit `position * exit_price`,
finalize the trade record, return to flat. -/
def exitAt (s : BTState) (p : OpenPos) (time : Int) (exit_price : Rat) (reason : ExitReason) : BTState :=
  { cash := s.cash + (p.qty : Rat) * exit_price
    pos := none
    trades := s.trades ++ [closeTrade p time exit_price reason]
    entries := s.entries }

/-- The three exit checks of the `if position > 0` management block, in
source order (stop, then take-profit, then trend flip); at most one
fires. -/
def manageOpen (row : Bar) (s : BTState) (p : OpenPos) : BTState :=
  if row.Low ≤ p.stop_price then exitAt s p row.time p.stop_price ExitReason.STOP
  else if takeProfit p ≤ row.High then exitAt s p row.time (takeProfit p) ExitReason.TP
  else if row.EMA50 < row.EMA200 then exitAt s p row.time row.Close ExitReason.TREND_FLIP
  else s

/-- The `if position > 0` management block. -/
def managePosition (row : Bar) (s : BTState) : BTState :=
  match s.pos with
  | none => s
  | some p => manageOpen row s p

/-- One iteration of the `for i in range(1, len(df))` loop: the entry
check (only when flat) followed by the position-management check, both
at bar `i` (so an entry at bar `i` is already exposed to the exit
checks of bar `i`). -/
def barStep (df : List Bar) (risk_per_trade : Rat) (s : BTState) (i : Nat) : BTState :=
  match df[i]?, df[i-1]? with
  | some row, some prev =>
    managePosition row
      (if s.pos = none ∧ entrySignal row prev then doEntry df i row risk_per_trade s else s)
  | _, _ => s

/-- Loop state before the first iteration. -/
def initState (initial_capital : Rat) : BTState :=
  { cash := initial_capital, pos := none, trades := [], entries := 0 }

/-- The loop after processing bars `1, …, n`. -/
def loopTo (df : List Bar) (initial_capital risk_per_trade : Rat) (n : Nat) : BTState :=
  List.foldl (barStep df risk_per_trade) (initState initial_capital) (List.range' 1 n)

/-- The whole `for` loop of `backtest`: `range(1, len(df))`. -/
def runLoop (df : List Bar) (initial_capital risk_per_trade : Rat) : BTState :=
  loopTo df initial_capital risk_per_trade (df.length - 1)

/-- The `# Close at end` block: if still long after the last bar,
force-close at the close of the last bar with reason `EOD`.  (The source
leaves the `position` variable dangling; the state here returns to
flat, which is what the finalized ledger reflects.) -/
def finalize (df : List Bar) (s : BTState) : BTState :=
  match s.pos, df.getLast? with
  | some p, some lastBar =>
    { cash := s.cash + (p.qty : Rat) * lastBar.Close
      pos := none
      trades := s.trades ++ [closeTrade p lastBar.time lastBar.Close ExitReason.EOD]
      entries := s.entries }
  | _, _ => s

/-- Function `backtest(df, initial_capital, risk_per_trade)`: returns
`(trades_df, final_capital)`.  (Defaults in the source:
`initial_capital=100000`, `risk_per_trade=0.01`.) -/
def backtest (df : List Bar) (initial_capital risk_per_trade : Rat) : List Trade × Rat :=
  let s := finalize df (runLoop df initial_capital risk_per_trade)
  (s.trades, s.cash)

/-- Sum of the realized `P&L` column of a trade ledger. -/
def totalPnL (ts : List Trade) : Rat := (ts.map (fun t => t.PnL)).sum

/-- A close/volume row, as read by `obv` (`check_env.py`) and by its
duplicate `calculate_obv` (`app.py`). -/
structure CBar where
  close : Rat
  volume : Rat
  deriving DecidableEq, Repr

/-- One step of the OBV loop: compare the current close with the
previous close and add, subtract or keep the running value. -/
def obvStep (prevClose : Rat) (b : CBar) (acc : Rat) : Rat :=
  if b.close > prevClose then acc + b.volume
  else if b.close < prevClose then acc - b.volume
  else acc

/-- The OBV values for the bars after the first, given the previous
close and the running value. -/
def obvFrom (prevClose acc : Rat) : List CBar → List Rat
  | [] => []
  | b :: rest => obvStep prevClose b acc :: obvFrom b.close (obvStep prevClose b acc) rest

/-- Function `obv(df)`: the series starts at `0` and accumulates signed
volume.
(On an empty frame the source builds the list `[0]` and then crashes
constructing a length-0 `pd.Series` from it; the embedding is the
nonempty case, with `[]` for the empty frame.) -/
def obv : List CBar → List Rat
  | [] => []
  | b :: rest => 0 :: obvFrom b.close 0 rest

/-- The statistics dict of `performance_report`.  `WinRate`, `AvgWin`
and `AvgLoss` are `Option`s because the source only inserts those keys
when `trades_df` is nonempty. -/
structure Stats where
  InitialCapital : Rat
  FinalCapital : Rat
  TotalReturn : Rat
  TotalPnL : Rat
  NumTrades : Nat
  WinRate : Option Rat
  AvgWin : Option Rat
  AvgLoss : Option Rat
  deriving DecidableEq, Repr

/-- The winning rows of the ledger, filtered by `P&L > 0`. -/
def winsOf (ts : List Trade) : List Trade := ts.filter (fun t => decide (0 < t.PnL))

/-- The losing-or-breakeven rows, filtered by `P&L <= 0`. -/
def lossesOf (ts : List Trade) : List Trade := ts.filter (fun t => decide (t.PnL ≤ 0))

/-- Function `performance_report(trades_df, initial_capital, final_capital)`.
The mean of a nonempty column is its sum over its length; the
`WinRate`/`AvgWin`/`AvgLoss` keys exist only when the ledger is
nonempty. -/
def performance_report (trades_df : List Trade) (initial_capital final_capital : Rat) : Stats :=
  { InitialCapital := initial_capital
    FinalCapital := final_capital
    TotalReturn := (final_capital - initial_capital) / initial_capital
    TotalPnL := final_capital - initial_capital
    NumTrades := trades_df.length
    WinRate :=
      if trades_df.isEmpty then none
      else some (((winsOf trades_df).length : Rat) / (trades_df.length : Rat))
    AvgWin :=
      if trades_df.isEmpty then none
      else some (if (winsOf trades_df).isEmpty then 0
                 else totalPnL (winsOf trades_df) / ((winsOf trades_df).length : Rat))
    AvgLoss :=
      if trades_df.isEmpty then none
      else some (if (lossesOf trades_df).isEmpty then 0
                 else totalPnL (lossesOf trades_df) / ((lossesOf trades_df).length : Rat)) }
/-- Cash commitment of the open position: what was debited at its entry. -/
def posDebit : Option OpenPos → Rat
  | none => 0
  | some p => (p.qty : Rat) * p.entry_price

theorem manage_cases (row : Bar) (s : BTState) :
    managePosition row s = s ∨
    ∃ p ep er, s.pos = some p ∧ managePosition row s = exitAt s p row.time ep er := by
  unfold managePosition
  cases hp : s.pos with
  | none => exact Or.inl rfl
  | some p =>
    dsimp only
    unfold manageOpen
    by_cases h1 : row.Low ≤ p.stop_price
    · exact Or.inr ⟨p, p.stop_price, ExitReason.STOP, rfl, by rw [if_pos h1]⟩
    · by_cases h2 : takeProfit p ≤ row.High
      · exact Or.inr ⟨p, takeProfit p, ExitReason.TP, rfl, by rw [if_neg h1, if_pos h2]⟩
      · by_cases h3 : row.EMA50 < row.EMA200
        · exact Or.inr ⟨p, row.Close, ExitReason.TREND_FLIP, rfl,
            by rw [if_neg h1, if_neg h2, if_pos h3]⟩
        · exact Or.inl (by rw [if_neg h1, if_neg h2, if_neg h3])

theorem doEntry_cases (df : List Bar) (i : Nat) (row : Bar) (r : Rat) (s : BTState) :
    doEntry df i row r s = s ∨
    ∃ p : OpenPos, 0 < p.qty ∧ p.entry_price = row.Close ∧ p.entry_time = row.time ∧
      doEntry df i row r s =
        { cash := s.cash - (p.qty : Rat) * p.entry_price, pos := some p,
          trades := s.trades, entries := s.entries + 1 } := by
  unfold doEntry
  by_cases h1 : 0 < row.Close - entryStop df i row
  · by_cases h2 : 0 < entryQty df i row r s.cash
    · exact Or.inr ⟨⟨entryQty df i row r s.cash, row.Close, entryStop df i row, row.time⟩,
        h2, rfl, rfl, by rw [if_pos h1, if_pos h2]⟩
    · exact Or.inl (by rw [if_pos h1, if_neg h2])
  · exact Or.inl (by rw [if_neg h1])

theorem barStep_spec (df : List Bar) (r : Rat) (s : BTState) (i : Nat) :
    barStep df r s i = s
  ∨ (∃ row p, df[i]? = some row ∧ s.pos = none ∧ 0 < p.qty ∧
       p.entry_price = row.Close ∧ p.entry_time = row.time ∧
       barStep df r s i = { cash := s.cash - (p.qty : Rat) * p.entry_price, pos := some p,
                            trades := s.trades, entries := s.entries + 1 })
  ∨ (∃ row p ep er, df[i]? = some row ∧ s.pos = some p ∧
       barStep df r s i = exitAt s p row.time ep er)
  ∨ (∃ row p ep er, df[i]? = some row ∧ s.pos = none ∧ 0 < p.qty ∧
       p.entry_price = row.Close ∧ p.entry_time = row.time ∧
       barStep df r s i =
         { cash := s.cash - (p.qty : Rat) * p.entry_price + (p.qty : Rat) * ep, pos := none,
           trades := s.trades ++ [closeTrade p row.time ep er], entries := s.entries + 1 }) := by
  unfold barStep
  cases hrow : df[i]? with
  | none => exact Or.inl rfl
  | some row =>
    cases hprev : df[i-1]? with
    | none => exact Or.inl rfl
    | some prev =>
      dsimp only
      by_cases hc : (s.pos = none ∧ entrySignal row prev)
      · rw [if_pos hc]
        rcases doEntry_cases df i row r s with hde | ⟨p, hq, hep, het, hde⟩
        · rw [hde]
          rcases manage_cases row s with hm | ⟨p, ep, er, hp, hm⟩
          · exact Or.inl hm
          · rw [hc.1] at hp; cases hp
        · rw [hde]
          rcases manage_cases row
              { cash := s.cash - (p.qty : Rat) * p.entry_price, pos := some p,
                trades := s.trades, entries := s.entries + 1 } with hm | ⟨p2, ep, er, hp2, hm⟩
          · exact Or.inr (Or.inl ⟨row, p, rfl, hc.1, hq, hep, het, hm⟩)
          · obtain rfl : p2 = p := by
              have h2 : some p = some p2 := hp2
              exact (Option.some_inj.mp h2).symm
            refine Or.inr (Or.inr (Or.inr ⟨row, p2, ep, er, rfl, hc.1, hq, hep, het, ?_⟩))
            rw [hm]; rfl
      · rw [if_neg hc]
        rcases manage_cases row s with hm | ⟨p, ep, er, hp, hm⟩
        · exact Or.inl hm
        · exact Or.inr (Or.inr (Or.inl ⟨row, p, ep, er, rfl, hp, hm⟩))

/-- Anatomy of the end-of-data block. -/
theorem finalize_cases (df : List Bar) (s : BTState) :
    finalize df s = s ∨
    ∃ p lastBar, s.pos = some p ∧ df.getLast? = some lastBar ∧
      finalize df s =
        { cash := s.cash + (p.qty : Rat) * lastBar.Close, pos := none,
          trades := s.trades ++ [closeTrade p lastBar.time lastBar.Close ExitReason.EOD],
          entries := s.entries } := by
  unfold finalize
  cases hp : s.pos with
  | none => exact Or.inl rfl
  | some p =>
    cases hl : df.getLast? with
    | none => exact Or.inl rfl
    | some lastBar => exact Or.inr ⟨p, lastBar, rfl, rfl, rfl⟩

/-- The cash-ledger invariant maintained by the loop: the current cash
is the initial capital, plus all realized P&L, minus the cost basis of
the open position. -/
def cashInv (init : Rat) (s : BTState) : Prop :=
  s.cash = init + totalPnL s.trades - posDebit s.pos

theorem cashInv_barStep (df : List Bar) (r : Rat) (i : Nat) {init : Rat} {s : BTState}
    (h : cashInv init s) : cashInv init (barStep df r s i) := by
  unfold cashInv at h ⊢
  rcases barStep_spec df r s i with h0 | ⟨row, p, hrow, hpos, hq, hep, het, he⟩
    | ⟨row, p, ep, er, hrow, hpos, he⟩ | ⟨row, p, ep, er, hrow, hpos, hq, hep, het, he⟩
  · rw [h0]; exact h
  · rw [he]; rw [hpos] at h; simp only [posDebit] at h ⊢
    rw [h]; ring
  · rw [he]; rw [hpos] at h; simp only [posDebit] at h
    simp only [exitAt, totalPnL, closeTrade, List.map_append, List.sum_append, List.map_cons,
      List.map_nil, List.sum_cons, List.sum_nil, posDebit]
    unfold totalPnL at h
    rw [h]; ring
  · rw [he]; rw [hpos] at h; simp only [posDebit] at h ⊢
    simp only [totalPnL, closeTrade, List.map_append, List.sum_append, List.map_cons,
      List.map_nil, List.sum_cons, List.sum_nil]
    unfold totalPnL at h
    rw [h]; ring

theorem cashInv_loopTo (df : List Bar) (init r : Rat) (n : Nat) :
    cashInv init (loopTo df init r n) := by
  unfold loopTo
  have hbase : cashInv init (initState init) := by
    unfold cashInv initState totalPnL posDebit; simp
  have hstep : ∀ (l : List Nat) (s : BTState), cashInv init s →
      cashInv init (List.foldl (barStep df r) s l) := by
    intro l
    induction l with
    | nil => intro s h; exact h
    | cons a l ih => intro s h; exact ih _ (cashInv_barStep df r a h)
  exact hstep _ _ hbase

/-- C3: For every bar sequence and configuration, the final cash
balance returned by `backtest` equals the initial capital plus the sum
of the realized P&L values of all trade records it produces. -/
theorem backtest_cash_roundtrip (df : List Bar) (init r : Rat) :
    (backtest df init r).2 = init + totalPnL (backtest df init r).1 := by
  have h : cashInv init (runLoop df init r) := cashInv_loopTo df init r (df.length - 1)
  unfold backtest
  rcases finalize_cases df (runLoop df init r) with hf | ⟨p, lastBar, hp, hl, hf⟩
  · rw [hf]
    unfold cashInv at h
    rcases hpos : (runLoop df init r).pos with _ | p
    · rw [hpos] at h; simp only [posDebit] at h; simpa using h
    · exfalso
      have hfin := hf
      unfold finalize at hfin
      rw [hpos] at hfin
      cases hl : df.getLast? with
      | none =>
        have hdf : df = [] := by simpa using List.getLast?_eq_none_iff.mp hl
        subst hdf
        have : (runLoop ([] : List Bar) init r).pos = none := rfl
        rw [hpos] at this; cases this
      | some lastBar =>
        rw [hl] at hfin
        have := congrArg BTState.pos hfin
        dsimp at this
        rw [hpos] at this; cases this
  · rw [hf]
    unfold cashInv at h
    rw [hp] at h; simp only [posDebit] at h
    simp only [totalPnL, closeTrade, List.map_append, List.sum_append, List.map_cons,
      List.map_nil, List.sum_cons, List.sum_nil]
    unfold totalPnL at h
    rw [h]; ring

/-- Every entry event opens exactly one pending record: the entry
counter always equals the closed-trade count plus one for an open
position. -/
def entriesInv (s : BTState) : Prop :=
  s.entries = s.trades.length + (if s.pos.isSome then 1 else 0)

theorem entriesInv_barStep (df : List Bar) (r : Rat) (i : Nat) {s : BTState}
    (h : entriesInv s) : entriesInv (barStep df r s i) := by
  unfold entriesInv at h ⊢
  rcases barStep_spec df r s i with h0 | ⟨row, p, hrow, hpos, hq, hep, het, he⟩
    | ⟨row, p, ep, er, hrow, hpos, he⟩ | ⟨row, p, ep, er, hrow, hpos, hq, hep, het, he⟩
  · rw [h0]; exact h
  · rw [he]; rw [hpos] at h; simp at h ⊢; omega
  · rw [he]; rw [hpos] at h; simp [exitAt] at h ⊢; omega
  · rw [he]; rw [hpos] at h; simp at h ⊢; omega

theorem entriesInv_loopTo (df : List Bar) (init r : Rat) (n : Nat) :
    entriesInv (loopTo df init r n) := by
  unfold loopTo
  have hbase : entriesInv (initState init) := by unfold entriesInv initState; simp
  have hstep : ∀ (l : List Nat) (s : BTState), entriesInv s →
      entriesInv (List.foldl (barStep df r) s l) := by
    intro l
    induction l with
    | nil => intro s h; exact h
    | cons a l ih => intro s h; exact ih _ (entriesInv_barStep df r a h)
  exact hstep _ _ hbase

theorem sorted_time {df : List Bar} (hs : df.Pairwise (fun a b => a.time ≤ b.time))
    {i j : Nat} {a b : Bar} (hij : i ≤ j) (ha : df[i]? = some a) (hb : df[j]? = some b) :
    a.time ≤ b.time := by
  obtain ⟨hi, hia⟩ := List.getElem?_eq_some.mp ha
  obtain ⟨hj, hjb⟩ := List.getElem?_eq_some.mp hb
  rcases lt_or_eq_of_le hij with hlt | heq
  · have h2 := (List.pairwise_iff_getElem.mp hs) i j hi hj hlt
    rw [hia, hjb] at h2
    exact h2
  · subst heq
    rw [hia] at hjb
    rw [hjb]

/-- The chronology invariant after processing bars `1, …, n`: closed
records respect entry-before-exit, and an open position was entered at
a bar no later than any still-unprocessed bar. -/
def TimeOk (df : List Bar) (n : Nat) (s : BTState) : Prop :=
  (∀ t ∈ s.trades, t.EntryTime ≤ t.ExitTime) ∧
  (∀ p, s.pos = some p → ∀ j b, n ≤ j → df[j]? = some b → p.entry_time ≤ b.time)

theorem timeOk_barStep {df : List Bar} (hs : df.Pairwise (fun a b => a.time ≤ b.time))
    (r : Rat) (n : Nat) {s : BTState} (h : TimeOk df n s) :
    TimeOk df (n + 1) (barStep df r s (n + 1)) := by
  rcases barStep_spec df r s (n + 1) with h0 | ⟨row, p, hrow, hpos, hq, hep, het, he⟩
    | ⟨row, p, ep, er, hrow, hpos, he⟩ | ⟨row, p, ep, er, hrow, hpos, hq, hep, het, he⟩
  · rw [h0]
    exact ⟨h.1, fun p hp j b hj hb => h.2 p hp j b (le_trans (Nat.le_succ n) hj) hb⟩
  · rw [he]
    constructor
    · exact fun t ht => h.1 t ht
    · intro p2 hp2 j b hj hb
      have h2 : some p = some p2 := hp2
      obtain rfl : p = p2 := Option.some_inj.mp h2
      rw [het]
      exact sorted_time hs hj hrow hb
  · rw [he]
    constructor
    · intro t ht
      simp only [exitAt, List.mem_append, List.mem_singleton] at ht
      rcases ht with ht | rfl
      · exact h.1 t ht
      · simp only [closeTrade]
        exact h.2 p hpos (n + 1) row (Nat.le_succ n) hrow
    · intro p2 hp2
      exact absurd hp2 (by simp [exitAt])
  · rw [he]
    constructor
    · intro t ht
      simp only [List.mem_append, List.mem_singleton] at ht
      rcases ht with ht | rfl
      · exact h.1 t ht
      · simp only [closeTrade, het]
        exact le_rfl
    · intro p2 hp2
      exact absurd hp2 (by simp)

theorem timeOk_loopTo {df : List Bar} (hs : df.Pairwise (fun a b => a.time ≤ b.time))
    (init r : Rat) (n : Nat) : TimeOk df n (loopTo df init r n) := by
  induction n with
  | zero =>
    constructor
    · intro t ht; simp [loopTo, initState] at ht
    · intro p hp; simp [loopTo, initState] at hp
  | succ n ih =>
    unfold loopTo at ih ⊢
    rw [show List.range' 1 (n + 1) = List.range' 1 n ++ [1 + n] from by
      simpa using @List.range'_concat 1 1 n]
    rw [List.foldl_append]
    simp only [List.foldl_cons, List.foldl_nil]
    rw [show 1 + n = n + 1 from Nat.add_comm 1 n]
    exact timeOk_barStep hs r n ih

theorem finalize_of_pos_none {df : List Bar} {s : BTState} (h : s.pos = none) :
    finalize df s = s := by
  unfold finalize; rw [h]

theorem pos_some_getLast {df : List Bar} {init r : Rat} {p : OpenPos}
    (hp : (runLoop df init r).pos = some p) : ∃ lastBar, df.getLast? = some lastBar := by
  cases hl : df.getLast? with
  | some lastBar => exact ⟨lastBar, rfl⟩
  | none =>
    have hdf : df = [] := by simpa using List.getLast?_eq_none_iff.mp hl
    subst hdf
    have hnone : (runLoop ([] : List Bar) init r).pos = none := rfl
    rw [hp] at hnone; cases hnone

/-- C9: the loop state holds at most one open position; the number of
entry events equals the number of finalized trade records; and, when
the bars are chronologically ordered, every trade record exits no
earlier than it entered. -/
theorem backtest_ledger_invariants (df : List Bar) (init r : Rat)
    (hsorted : df.Pairwise (fun a b => a.time ≤ b.time)) :
    (∀ n, (loopTo df init r n).pos = none ∨ ∃ p, (loopTo df init r n).pos = some p) ∧
    (finalize df (runLoop df init r)).entries = (backtest df init r).1.length ∧
    (∀ t ∈ (backtest df init r).1, t.EntryTime ≤ t.ExitTime) := by
  have hinv := entriesInv_loopTo df init r (df.length - 1)
  rw [show loopTo df init r (df.length - 1) = runLoop df init r from rfl] at hinv
  unfold entriesInv at hinv
  have ht := timeOk_loopTo hsorted init r (df.length - 1)
  rw [show loopTo df init r (df.length - 1) = runLoop df init r from rfl] at ht
  refine ⟨?_, ?_, ?_⟩
  · intro n
    cases h : (loopTo df init r n).pos with
    | none => exact Or.inl rfl
    | some p => exact Or.inr ⟨p, rfl⟩
  · unfold backtest
    rcases hpos : (runLoop df init r).pos with _ | p
    · rw [finalize_of_pos_none hpos]
      simp only [hpos, Option.isSome_none, Bool.false_eq_true, if_false, Nat.add_zero] at hinv
      exact hinv
    · obtain ⟨lastBar, hl⟩ := pos_some_getLast hpos
      have hf : finalize df (runLoop df init r) =
          { cash := (runLoop df init r).cash + (p.qty : Rat) * lastBar.Close, pos := none,
            trades := (runLoop df init r).trades ++
              [closeTrade p lastBar.time lastBar.Close ExitReason.EOD],
            entries := (runLoop df init r).entries } := by
        unfold finalize; rw [hpos, hl]
      rw [hf]
      simp only [hpos, Option.isSome_some, if_true] at hinv
      simp [hinv]
  · unfold backtest
    rcases hpos : (runLoop df init r).pos with _ | p
    · rw [finalize_of_pos_none hpos]
      exact ht.1
    · obtain ⟨lastBar, hl⟩ := pos_some_getLast hpos
      have hf : finalize df (runLoop df init r) =
          { cash := (runLoop df init r).cash + (p.qty : Rat) * lastBar.Close, pos := none,
            trades := (runLoop df init r).trades ++
              [closeTrade p lastBar.time lastBar.Close ExitReason.EOD],
            entries := (runLoop df init r).entries } := by
        unfold finalize; rw [hpos, hl]
      rw [hf]
      intro t ht2
      simp only [List.mem_append, List.mem_singleton] at ht2
      rcases ht2 with ht2 | rfl
      · exact ht.1 t ht2
      · simp only [closeTrade]
        refine ht.2 p hpos (df.length - 1) lastBar le_rfl ?_
        rw [← List.getLast?_eq_getElem?]
        exact hl

/-- C1: while a position is open, processing the bar is exactly the
management block, whose exit checks fire in the fixed priority order
stop, take-profit (entry + 2 x per-share risk), trend flip — with the
stated exit prices and reasons — and at most one exit happens per bar. -/
theorem backtest_exit_priority (df : List Bar) (r : Rat) (s : BTState) (i : Nat)
    (row prev : Bar) (p : OpenPos)
    (hrow : df[i]? = some row) (hprev : df[i-1]? = some prev) (hp : s.pos = some p) :
    barStep df r s i = managePosition row s ∧
    (row.Low ≤ p.stop_price →
      barStep df r s i = exitAt s p row.time p.stop_price ExitReason.STOP) ∧
    (¬ row.Low ≤ p.stop_price → takeProfit p ≤ row.High →
      barStep df r s i = exitAt s p row.time (takeProfit p) ExitReason.TP) ∧
    (¬ row.Low ≤ p.stop_price → ¬ takeProfit p ≤ row.High → row.EMA50 < row.EMA200 →
      barStep df r s i = exitAt s p row.time row.Close ExitReason.TREND_FLIP) ∧
    (¬ row.Low ≤ p.stop_price → ¬ takeProfit p ≤ row.High → ¬ row.EMA50 < row.EMA200 →
      barStep df r s i = s) ∧
    (barStep df r s i).trades.length ≤ s.trades.length + 1 := by
  have hne : ¬ (s.pos = none ∧ entrySignal row prev) := by
    intro hc; rw [hp] at hc; cases hc.1
  have hbar : barStep df r s i = managePosition row s := by
    unfold barStep
    rw [hrow, hprev]
    dsimp only
    rw [if_neg hne]
  have hman : managePosition row s = manageOpen row s p := by
    unfold managePosition; rw [hp]
  refine ⟨hbar, ?_, ?_, ?_, ?_, ?_⟩
  · intro h1
    rw [hbar, hman]; unfold manageOpen; rw [if_pos h1]
  · intro h1 h2
    rw [hbar, hman]; unfold manageOpen; rw [if_neg h1, if_pos h2]
  · intro h1 h2 h3
    rw [hbar, hman]; unfold manageOpen; rw [if_neg h1, if_neg h2, if_pos h3]
  · intro h1 h2 h3
    rw [hbar, hman]; unfold manageOpen; rw [if_neg h1, if_neg h2, if_neg h3]
  · rw [hbar]
    rcases manage_cases row s with hm | ⟨p2, ep, er, _, hm⟩
    · rw [hm]; exact Nat.le_succ _
    · rw [hm]; simp [exitAt]

/-- C2: on a flat bar whose entry conditions hold, the entry is sized
per the source: stop = trailing-window low (or 1% below entry),
quantity = floor(risk budget / per-share risk), and the entry is
skipped whenever the per-share risk or the quantity is non-positive. -/
theorem backtest_entry_sizing (df : List Bar) (r : Rat) (s : BTState) (i : Nat)
    (row prev : Bar)
    (hrow : df[i]? = some row) (hprev : df[i-1]? = some prev)
    (hflat : s.pos = none) (hsig : entrySignal row prev)
    (hcash : 0 ≤ s.cash) (hr : 0 ≤ r) :
    entryStop df i row =
      (if recentLow df i < row.Close then recentLow df i else row.Close * (99 / 100)) ∧
    (0 < row.Close - entryStop df i row →
      entryQty df i row r s.cash = ⌊s.cash * r / (row.Close - entryStop df i row)⌋) ∧
    (0 < row.Close - entryStop df i row → 0 < entryQty df i row r s.cash →
      barStep df r s i = managePosition row
        { cash := s.cash - (entryQty df i row r s.cash : Rat) * row.Close
          pos := some ⟨entryQty df i row r s.cash, row.Close, entryStop df i row, row.time⟩
          trades := s.trades
          entries := s.entries + 1 }) ∧
    ((row.Close - entryStop df i row ≤ 0 ∨ entryQty df i row r s.cash ≤ 0) →
      barStep df r s i = s) := by
  have hbar : barStep df r s i = managePosition row (doEntry df i row r s) := by
    unfold barStep
    rw [hrow, hprev]
    dsimp only
    rw [if_pos ⟨hflat, hsig⟩]
  refine ⟨rfl, ?_, ?_, ?_⟩
  · intro h1
    unfold entryQty pyInt
    rw [if_pos (div_nonneg (mul_nonneg hcash hr) (le_of_lt h1))]
  · intro h1 h2
    rw [hbar]
    unfold doEntry
    rw [if_pos h1, if_pos h2]
  · intro hskip
    have hde : doEntry df i row r s = s := by
      unfold doEntry
      rcases hskip with h | h
      · rw [if_neg (not_lt.mpr h)]
      · by_cases h1 : 0 < row.Close - entryStop df i row
        · rw [if_pos h1, if_neg (not_lt.mpr h)]
        · rw [if_neg h1]
    rw [hbar, hde]
    unfold managePosition
    rw [hflat]

/-- C4 (amended): over one loop iteration and over the end-of-data
block, the cash balance changes only at an entry event (debited by
quantity x entry price) or an exit event (credited by quantity x exit
price); in every other case the state is untouched.  (The balance can
nevertheless become negative: see the counterexample.) -/
theorem backtest_cash_updates (df : List Bar) (r : Rat) (s : BTState) (i : Nat) :
    (barStep df r s i = s
      ∨ (∃ p : OpenPos, s.pos = none ∧ (barStep df r s i).pos = some p ∧
          (barStep df r s i).trades = s.trades ∧
          (barStep df r s i).cash = s.cash - (p.qty : Rat) * p.entry_price)
      ∨ (∃ (p : OpenPos) (t : Trade), s.pos = some p ∧ (barStep df r s i).pos = none ∧
          (barStep df r s i).trades = s.trades ++ [t] ∧ t.Qty = p.qty ∧
          (barStep df r s i).cash = s.cash + (t.Qty : Rat) * t.ExitPrice)
      ∨ (∃ (p : OpenPos) (t : Trade), s.pos = none ∧ (barStep df r s i).pos = none ∧
          (barStep df r s i).trades = s.trades ++ [t] ∧ t.Qty = p.qty ∧
          t.EntryPrice = p.entry_price ∧
          (barStep df r s i).cash =
            s.cash - (p.qty : Rat) * p.entry_price + (t.Qty : Rat) * t.ExitPrice)) ∧
    (finalize df s = s
      ∨ ∃ (p : OpenPos) (t : Trade), s.pos = some p ∧ (finalize df s).pos = none ∧
          (finalize df s).trades = s.trades ++ [t] ∧ t.Qty = p.qty ∧
          (finalize df s).cash = s.cash + (t.Qty : Rat) * t.ExitPrice) := by
  constructor
  · rcases barStep_spec df r s i with h0 | ⟨row, p, hrow, hpos, hq, hep, het, he⟩
      | ⟨row, p, ep, er, hrow, hpos, he⟩ | ⟨row, p, ep, er, hrow, hpos, hq, hep, het, he⟩
    · exact Or.inl h0
    · refine Or.inr (Or.inl ⟨p, hpos, ?_, ?_, ?_⟩) <;> rw [he]
    · refine Or.inr (Or.inr (Or.inl ⟨p, closeTrade p row.time ep er, hpos, ?_, ?_, rfl, ?_⟩)) <;>
        (rw [he]; try rfl)
    · refine Or.inr (Or.inr (Or.inr ⟨p, closeTrade p row.time ep er, hpos, ?_, ?_, rfl, rfl,
        ?_⟩)) <;> (rw [he]; try rfl)
  · rcases finalize_cases df s with h0 | ⟨p, lastBar, hp, hl, hf⟩
    · exact Or.inl h0
    · refine Or.inr ⟨p, closeTrade p lastBar.time lastBar.Close ExitReason.EOD, hp, ?_, ?_,
        rfl, ?_⟩ <;> (rw [hf]; try rfl)

/-- C6: every finalized trade record carries one of the four exit
reasons (`STOP`, `TP` i.e. take-profit, `TREND_FLIP`, `EOD` i.e.
end-of-data), and a position still open after the loop is force-closed
at the close price of the last bar, with reason `EOD`. -/
theorem backtest_exit_reasons (df : List Bar) (init r : Rat) :
    (∀ t ∈ (backtest df init r).1,
      t.Reason = ExitReason.STOP ∨ t.Reason = ExitReason.TP ∨
      t.Reason = ExitReason.TREND_FLIP ∨ t.Reason = ExitReason.EOD) ∧
    (∀ p lastBar, (runLoop df init r).pos = some p → df.getLast? = some lastBar →
      (backtest df init r).1 = (runLoop df init r).trades ++
        [closeTrade p lastBar.time lastBar.Close ExitReason.EOD] ∧
      (closeTrade p lastBar.time lastBar.Close ExitReason.EOD).Reason = ExitReason.EOD ∧
      (closeTrade p lastBar.time lastBar.Close ExitReason.EOD).ExitPrice = lastBar.Close) := by
  constructor
  · intro t _
    cases h : t.Reason
    · exact Or.inl rfl
    · exact Or.inr (Or.inl rfl)
    · exact Or.inr (Or.inr (Or.inl rfl))
    · exact Or.inr (Or.inr (Or.inr rfl))
  · intro p lastBar hp hl
    have hf : finalize df (runLoop df init r) =
        { cash := (runLoop df init r).cash + (p.qty : Rat) * lastBar.Close, pos := none,
          trades := (runLoop df init r).trades ++
            [closeTrade p lastBar.time lastBar.Close ExitReason.EOD],
          entries := (runLoop df init r).entries } := by
      unfold finalize; rw [hp, hl]
    unfold backtest
    rw [hf]
    exact ⟨rfl, rfl, rfl⟩

/-- C8 (amended): on an empty or one-bar input the simulation loop has
no iterations and `backtest` returns the empty ledger with the initial
capital unchanged — a normal result, with no insufficient-data signal. -/
theorem backtest_short_input (df : List Bar) (init r : Rat) (h : df.length ≤ 1) :
    backtest df init r = ([], init) := by
  have h0 : df.length - 1 = 0 := by omega
  have hrun : runLoop df init r = initState init := by
    unfold runLoop loopTo
    rw [h0]
    rfl
  unfold backtest
  rw [hrun, finalize_of_pos_none rfl]
  rfl

theorem obvFrom_length (l : List CBar) : ∀ pc acc : Rat, (obvFrom pc acc l).length = l.length := by
  induction l with
  | nil => intro pc acc; rfl
  | cons c tl ih => intro pc acc; simp [obvFrom, ih]

theorem obvFrom_rel (l : List CBar) : ∀ (pc acc : Rat) (i : Nat) (a b : CBar) (x y : Rat),
    l[i]? = some a → l[i+1]? = some b → (obvFrom pc acc l)[i]? = some x →
    (obvFrom pc acc l)[i+1]? = some y → y = obvStep a.close b x := by
  induction l with
  | nil => intro pc acc i a b x y ha _ _ _; simp at ha
  | cons c tl ih =>
    intro pc acc i a b x y ha hb hx hy
    cases i with
    | zero =>
      cases tl with
      | nil => simp at hb
      | cons d tl2 =>
        simp only [List.getElem?_cons_zero, List.getElem?_cons_succ, obvFrom,
          Option.some_inj] at ha hb hx hy
        subst ha hb hx hy
        rfl
    | succ n =>
      simp only [List.getElem?_cons_succ, obvFrom] at ha hb hx hy
      exact ih c.close (obvStep pc c acc) n a b x y ha hb hx hy

/-- C7: the OBV series has one value per bar, starts at `0`, and each
later value moves by exactly the current volume (up when the close
rose, down when it fell, flat on a tie). -/
theorem obv_series_spec (l : List CBar) (hne : l ≠ []) :
    (obv l).length = l.length ∧ (obv l)[0]? = some 0 ∧
    ∀ (i : Nat) (a b : CBar) (x y : Rat),
      l[i]? = some a → l[i+1]? = some b → (obv l)[i]? = some x → (obv l)[i+1]? = some y →
      y = (if a.close < b.close then x + b.volume
           else if b.close < a.close then x - b.volume else x) := by
  obtain ⟨c, rest, rfl⟩ := List.exists_cons_of_ne_nil hne
  refine ⟨by simp [obv, obvFrom_length], by simp [obv], ?_⟩
  intro i a b x y ha hb hx hy
  cases i with
  | zero =>
    cases rest with
    | nil => simp at hb
    | cons d tl =>
      simp only [obv, obvFrom, List.getElem?_cons_zero, List.getElem?_cons_succ,
        Option.some_inj] at ha hb hx hy
      subst ha hb hx hy
      rfl
  | succ n =>
    simp only [obv, List.getElem?_cons_succ] at ha hb hx hy
    rw [obvFrom_rel rest c.close 0 n a b x y ha hb hx hy]
    rfl

/-- C5 (amended): `performance_report` never raises; on a nonempty
ledger it reports win rate = winners / total, average win = mean P&L of
winners (0 if none), average loss = mean P&L of losers-or-breakeven (0
if none); on an empty ledger those three keys are omitted (`none`)
rather than reported as 0. -/
theorem performance_report_fields (ts : List Trade) (ic fc : Rat) :
    (ts = [] → (performance_report ts ic fc).WinRate = none ∧
      (performance_report ts ic fc).AvgWin = none ∧
      (performance_report ts ic fc).AvgLoss = none) ∧
    (ts ≠ [] →
      (performance_report ts ic fc).WinRate =
        some (((winsOf ts).length : Rat) / (ts.length : Rat)) ∧
      (performance_report ts ic fc).AvgWin =
        some (if (winsOf ts).isEmpty then 0
              else totalPnL (winsOf ts) / ((winsOf ts).length : Rat)) ∧
      (performance_report ts ic fc).AvgLoss =
        some (if (lossesOf ts).isEmpty then 0
              else totalPnL (lossesOf ts) / ((lossesOf ts).length : Rat))) := by
  constructor
  · intro h
    subst h
    exact ⟨rfl, rfl, rfl⟩
  · intro h
    have hne : ts.isEmpty = false := by
      cases ts with
      | nil => exact absurd rfl h
      | cons a l => rfl
    unfold performance_report
    rw [hne]
    exact ⟨rfl, rfl, rfl⟩

/-- Warm-up bar supplying the window low 95 for the scenarios. -/
def exB0 : Bar := ⟨0, 100, 95, 100, 0, 0, 0, 1⟩

/-- Entry bar: all three entry conditions hold; stop computes to 95. -/
def exB1 : Bar := ⟨1, 100, 96, 100, 100, 99, 50, 2⟩

/-- Follow-up bar whose high touches the 110 take-profit. -/
def exB2 : Bar := ⟨2, 100, 96, 110, 100, 99, 50, 2⟩

/-- Take-profit scenario: entry at 100 with stop 95, then high 110. -/
def exDfTP : List Bar := [exB0, exB1, exB2]

/-- Open-position scenario: entry at the last bar, no exit trigger. -/
def exDfOpen : List Bar := [exB0, exB1]

/-- Entry bar whose own low 90 breaches the fresh stop 95. -/
def exBStop : Bar := ⟨1, 100, 90, 100, 100, 99, 50, 2⟩

/-- Same-bar stop scenario: the position opens and stops out on bar 1. -/
def exDfStop : List Bar := [exB0, exBStop]

/-- Warm-up bar with low 99.9, putting the stop a tenth below entry. -/
def exBNeg0 : Bar := ⟨0, 100, 999/10, 100, 0, 0, 0, 1⟩

/-- Entry bar: tiny per-share risk makes the sized entry cost 1000000. -/
def exBNeg1 : Bar := ⟨1, 100, 1999/20, 100, 100, 99, 50, 2⟩

/-- Overdraft scenario: the entry debit far exceeds available cash. -/
def exDfNeg : List Bar := [exBNeg0, exBNeg1]

/-- Bar failing the trend filter (fast EMA below slow EMA). -/
def exBFlat1 : Bar := ⟨1, 100, 96, 100, 99, 100, 50, 2⟩

/-- No-trade scenario: the entry conditions never hold. -/
def exDfNoTrade : List Bar := [exB0, exBFlat1]

/-- The position opened at bar 1 of the scenarios: 200 shares at 100
with stop 95. -/
def wPos : OpenPos := ⟨200, 100, 95, 1⟩

/-- A loop state holding that position with the entry already debited. -/
def wState : BTState := ⟨80000, some wPos, [], 1⟩

/-- C10: a bar sequence on which the position opens and closes on the
same bar: the freshly computed stop 95 is breached by the low of the
entry bar itself, so the record has equal entry and exit times, reason STOP. -/
theorem backtest_same_bar_exit :
    backtest exDfStop 100000 (1/100) =
      ([closeTrade wPos 1 95 ExitReason.STOP], 99000) ∧
    ∀ t ∈ (backtest exDfStop 100000 (1/100)).1,
      t.ExitTime = t.EntryTime ∧ t.Reason = ExitReason.STOP := by
  have h : backtest exDfStop 100000 (1/100) =
      ([closeTrade wPos 1 95 ExitReason.STOP], 99000) := by
    norm_num [backtest, runLoop, loopTo, initState, barStep, doEntry, managePosition,
      manageOpen, exitAt, closeTrade, entrySignal, entryStop, entryQty, recentLow, listMin,
      pyInt, takeProfit, finalize, exDfStop, exB0, exBStop, wPos, List.range']
  refine ⟨h, ?_⟩
  rw [h]
  intro t ht
  simp only [List.mem_singleton] at ht
  subst ht
  exact ⟨rfl, rfl⟩

/-- Witness for C1: entry 100, stop 95, bar low 90 exits at the stop
price 95 (not at 90) with reason STOP and P&L -5 x 200. -/
theorem backtest_exit_priority_witness :
    barStep exDfStop (1/100) wState 1 =
      exitAt wState wPos exBStop.time wPos.stop_price ExitReason.STOP ∧
    (exitAt wState wPos exBStop.time wPos.stop_price ExitReason.STOP).trades =
      [closeTrade wPos 1 95 ExitReason.STOP] ∧
    (closeTrade wPos 1 95 ExitReason.STOP).PnL = -1000 ∧
    (closeTrade wPos 1 95 ExitReason.STOP).ExitPrice = 95 := by
  refine ⟨?_, ?_, ?_, ?_⟩
  · exact (backtest_exit_priority exDfStop (1/100) wState 1 exBStop exB0 wPos rfl rfl rfl).2.1
      (by norm_num [exBStop, wPos])
  · norm_num [exitAt, wState, wPos, exBStop]
  · norm_num [closeTrade, wPos]
  · norm_num [closeTrade, wPos]

/-- Witness for C2: with risk budget 1000 and per-share risk 5 the
entry sizes to 200 shares with stop 95; the later bar with high 110
exits at the take-profit 110 with P&L 2000. -/
theorem backtest_entry_sizing_witness :
    entryQty exDfTP 1 exB1 (1/100) (initState 100000).cash = 200 ∧
    entryStop exDfTP 1 exB1 = 95 ∧
    barStep exDfTP (1/100) (initState 100000) 1 = managePosition exB1
      { cash := (initState 100000).cash -
          (entryQty exDfTP 1 exB1 (1/100) (initState 100000).cash : Rat) * exB1.Close
        pos := some ⟨entryQty exDfTP 1 exB1 (1/100) (initState 100000).cash, exB1.Close,
          entryStop exDfTP 1 exB1, exB1.time⟩
        trades := (initState 100000).trades
        entries := (initState 100000).entries + 1 } ∧
    backtest exDfTP 100000 (1/100) = ([closeTrade wPos 2 110 ExitReason.TP], 102000) ∧
    (closeTrade wPos 2 110 ExitReason.TP).PnL = 2000 := by
  refine ⟨?_, ?_, ?_, ?_, ?_⟩
  · norm_num [entryQty, entryStop, recentLow, listMin, pyInt, exDfTP, exB0, exB1, initState]
  · norm_num [entryStop, recentLow, listMin, exDfTP, exB0, exB1]
  · exact (backtest_entry_sizing exDfTP (1/100) (initState 100000) 1 exB1 exB0 rfl rfl rfl
      (by norm_num [entrySignal, exB1, exB0]) (by norm_num [initState]) (by norm_num)).2.2.1
      (by norm_num [entryStop, recentLow, listMin, exDfTP, exB0, exB1])
      (by norm_num [entryQty, entryStop, recentLow, listMin, pyInt, exDfTP, exB0, exB1, initState])
  · norm_num [backtest, runLoop, loopTo, initState, barStep, doEntry, managePosition,
      manageOpen, exitAt, closeTrade, entrySignal, entryStop, entryQty, recentLow, listMin,
      pyInt, takeProfit, finalize, exDfTP, exB0, exB1, exB2, wPos, List.range']
  · norm_num [closeTrade, wPos]

/-- Counterexample for C4: two bars on which the sized entry costs
1000000 against 100000 of cash, driving the balance to -900000 while
the position is open. -/
theorem backtest_cash_negative : (loopTo exDfNeg 100000 (1/100) 1).cash < 0 := by
  norm_num [loopTo, initState, barStep, doEntry, managePosition, manageOpen, exitAt,
    closeTrade, entrySignal, entryStop, entryQty, recentLow, listMin, pyInt, takeProfit,
    exDfNeg, exBNeg0, exBNeg1, List.range']

/-- Witness for C5: the report on an empty ledger omits the three
ratio keys. -/
theorem performance_report_fields_witness :
    (performance_report [] 100000 100000).WinRate = none ∧
    (performance_report [] 100000 100000).AvgWin = none ∧
    (performance_report [] 100000 100000).AvgLoss = none :=
  (performance_report_fields [] 100000 100000).1 rfl

/-- Counterexample for C5 as stated: on an empty ledger the win rate is
not reported as 0 — the key is absent (`none`), as are the average win
and average loss. -/
theorem performance_report_empty_not_zero :
    (performance_report [] 100000 100000).WinRate ≠ some 0 ∧
    (performance_report [] 100000 100000).WinRate = none ∧
    (performance_report [] 100000 100000).AvgWin = none ∧
    (performance_report [] 100000 100000).AvgLoss = none := by
  refine ⟨?_, rfl, rfl, rfl⟩
  intro h
  simp [performance_report] at h

/-- Witness for C6: on a run whose position survives the loop, the
ledger is the loop trades plus one EOD record closed at the close of
the last bar. -/
theorem backtest_exit_reasons_witness :
    (runLoop exDfOpen 100000 (1/100)).pos = some wPos ∧
    (backtest exDfOpen 100000 (1/100)).1 = (runLoop exDfOpen 100000 (1/100)).trades ++
      [closeTrade wPos exB1.time exB1.Close ExitReason.EOD] ∧
    backtest exDfOpen 100000 (1/100) = ([closeTrade wPos 1 100 ExitReason.EOD], 100000) := by
  have hpos : (runLoop exDfOpen 100000 (1/100)).pos = some wPos := by
    norm_num [runLoop, loopTo, initState, barStep, doEntry, managePosition, manageOpen,
      exitAt, closeTrade, entrySignal, entryStop, entryQty, recentLow, listMin, pyInt,
      takeProfit, exDfOpen, exB0, exB1, wPos, List.range']
  refine ⟨hpos, ?_, ?_⟩
  · exact ((backtest_exit_reasons exDfOpen 100000 (1/100)).2 wPos exB1 hpos rfl).1
  · norm_num [backtest, runLoop, loopTo, initState, barStep, doEntry, managePosition,
      manageOpen, exitAt, closeTrade, entrySignal, entryStop, entryQty, recentLow, listMin,
      pyInt, takeProfit, finalize, exDfOpen, exB0, exB1, wPos, List.range']

/-- The OBV scenario bars: closes 100, 105, 95 with volumes 10, 20, 15. -/
def exCBars : List CBar := [⟨100, 10⟩, ⟨105, 20⟩, ⟨95, 15⟩]

/-- Witness for C7: the scenario series evaluates to [0, 20, 5]. -/
theorem obv_series_spec_witness :
    (obv exCBars).length = exCBars.length ∧
    (obv exCBars)[0]? = some 0 ∧
    obv exCBars = [0, 20, 5] := by
  have h := obv_series_spec exCBars (by simp [exCBars])
  refine ⟨h.1, h.2.1, ?_⟩
  norm_num [obv, obvFrom, obvStep, exCBars]

/-- Witness for C8 (amended): the empty frame yields the empty ledger
and the untouched capital. -/
theorem backtest_short_input_witness :
    backtest ([] : List Bar) 100000 (1/100) = ([], 100000) :=
  backtest_short_input [] 100000 (1/100) (by simp)

/-- Counterexample for C8 as stated: on missing input the core does not
signal anything — its output is identical to that of a normal two-bar
run that simply produced no trades. -/
theorem backtest_no_insufficient_signal :
    backtest ([] : List Bar) 100000 (1/100) = ([], 100000) ∧
    backtest ([] : List Bar) 100000 (1/100) = backtest exDfNoTrade 100000 (1/100) := by
  have h1 : backtest ([] : List Bar) 100000 (1/100) = ([], 100000) := rfl
  have h2 : backtest exDfNoTrade 100000 (1/100) = ([], 100000) := by
    norm_num [backtest, runLoop, loopTo, initState, barStep, doEntry, managePosition,
      manageOpen, exitAt, closeTrade, entrySignal, entryStop, entryQty, recentLow, listMin,
      pyInt, takeProfit, finalize, exDfNoTrade, exB0, exBFlat1, List.range']
  exact ⟨h1, h1.trans h2.symm⟩

/-- Witness for C9: on the chronologically ordered take-profit scenario
the entry count equals the ledger length and the record exits after it
entered. -/
theorem backtest_ledger_invariants_witness :
    (finalize exDfTP (runLoop exDfTP 100000 (1/100))).entries =
      (backtest exDfTP 100000 (1/100)).1.length ∧
    ∀ t ∈ (backtest exDfTP 100000 (1/100)).1, t.EntryTime ≤ t.ExitTime := by
  have h := backtest_ledger_invariants exDfTP 100000 (1/100)
    (by norm_num [exDfTP, exB0, exB1, exB2, List.pairwise_cons])
  exact ⟨h.2.1, h.2.2⟩
